import Mathlib

/-!
# Verification of the toy DNS stub resolver message codec

Shallow embedding of `src/libs.rs`: the DNS name codec (including the
compression-pointer branch), header/question/record codecs, the packet
parser and the answer-extraction step of `lookup_domain`.

Buffers are `List Nat` holding byte values (`u8`, so `< 256`); machine
integers are `Nat` with explicit `% 256` / big-endian arithmetic where the
source performs casts.  Fallible Rust code (`anyhow::Result`) is embedded
into the `Res` type below, which additionally distinguishes the two ways
the source can fail to return a `Result`: an index/slice panic and
nontermination (the source's name decoder recurses without any loop
protection, so a fuel parameter is threaded through; exhausting the fuel
yields `Res.diverge`, and a result that is `diverge` for every fuel is a
nonterminating run of the source).
-/

set_option maxRecDepth 8192

namespace ToyDns

/-- Error cases of the source's `anyhow::Error` values: `eof` covers
`io::ErrorKind::UnexpectedEof` from `read_exact` together with the
`TryFromSliceError` of `extract_bytes!`; `unknownRecordType` / `unknownClass`
are `num_enum::TryFromPrimitiveError` for `RecordType` / `Class`; `utf8` is
`FromUtf8Error`; `format` is the `anyhow!("data is not correct format.")`
value in `lookup_domain`. -/
inductive DnsErr where
  | eof
  | unknownRecordType
  | unknownClass
  | utf8
  | format
deriving DecidableEq, Repr

/-- Outcome of running a piece of the source: `ok` and `err` are the two
`Result` cases, `panic` is an out-of-bounds index/slice panic, and
`diverge` is fuel exhaustion (modelling nontermination). -/
inductive Res (α : Type) where
  | ok (a : α)
  | err (e : DnsErr)
  | panic
  | diverge
deriving DecidableEq, Repr

/-- `?`-propagation: the source's `?` operator, with `panic` and `diverge`
passed through. -/
def Res.bind {α β : Type} : Res α → (α → Res β) → Res β
  | .ok a, f => f a
  | .err e, _ => .err e
  | .panic, _ => .panic
  | .diverge, _ => .diverge

/-- `buf[a..b].to_vec()` on a Rust slice (callers establish `a ≤ b ≤ len`;
the embedding guards the panicking cases at each call site). -/
def slice (l : List Nat) (a b : Nat) : List Nat :=
  (l.drop a).take (b - a)

/-- `u16::from_be_bytes(buf[i..i+2].try_into())`. -/
def u16be (l : List Nat) (i : Nat) : Nat :=
  256 * l.getD i 0 + l.getD (i + 1) 0

/-- `u32::from_be_bytes(buf[i..i+4].try_into())`. -/
def u32be (l : List Nat) (i : Nat) : Nat :=
  256 * (256 * (256 * l.getD i 0 + l.getD (i + 1) 0) + l.getD (i + 2) 0) + l.getD (i + 3) 0

/-- `u16::to_be_bytes`. -/
def u16bytes (n : Nat) : List Nat :=
  [n / 256 % 256, n % 256]

/-- `parts.join(".")` at byte level (`46` is `'.'`). -/
def joinDots : List (List Nat) → List Nat
  | [] => []
  | l :: ls =>
    match ls with
    | [] => l
    | _ :: _ => l ++ 46 :: joinDots ls

/-- `str::split('.')` at byte level: splitting on byte `46`.  On the valid
UTF-8 byte sequences that Rust strings are, this agrees with the source's
`char`-level split, because `'.'` is ASCII and never occurs inside a
multi-byte UTF-8 sequence. -/
def splitOnDot : List Nat → List (List Nat)
  | [] => [[]]
  | b :: rest =>
    if b = 46 then [] :: splitOnDot rest
    else
      match splitOnDot rest with
      | l :: ls => (b :: l) :: ls
      | [] => [[b]]

/-- A UTF-8 continuation byte (`0x80`–`0xBF`). -/
def utf8Cont (b : Nat) : Bool :=
  decide (128 ≤ b ∧ b ≤ 191)

/-- `String::from_utf8` succeeds exactly on the byte lists this predicate
accepts (the standard UTF-8 well-formedness table, surrogates and
over-long encodings excluded). -/
def utf8Valid : List Nat → Bool
  | [] => true
  | b :: rest =>
    if b < 128 then utf8Valid rest
    else if 194 ≤ b ∧ b ≤ 223 then
      match rest with
      | c1 :: r => utf8Cont c1 && utf8Valid r
      | [] => false
    else if b = 224 then
      match rest with
      | c1 :: c2 :: r => decide (160 ≤ c1 ∧ c1 ≤ 191) && utf8Cont c2 && utf8Valid r
      | _ => false
    else if 225 ≤ b ∧ b ≤ 236 then
      match rest with
      | c1 :: c2 :: r => utf8Cont c1 && utf8Cont c2 && utf8Valid r
      | _ => false
    else if b = 237 then
      match rest with
      | c1 :: c2 :: r => decide (128 ≤ c1 ∧ c1 ≤ 159) && utf8Cont c2 && utf8Valid r
      | _ => false
    else if 238 ≤ b ∧ b ≤ 239 then
      match rest with
      | c1 :: c2 :: r => utf8Cont c1 && utf8Cont c2 && utf8Valid r
      | _ => false
    else if b = 240 then
      match rest with
      | c1 :: c2 :: c3 :: r =>
        decide (144 ≤ c1 ∧ c1 ≤ 191) && utf8Cont c2 && utf8Cont c3 && utf8Valid r
      | _ => false
    else if 241 ≤ b ∧ b ≤ 243 then
      match rest with
      | c1 :: c2 :: c3 :: r => utf8Cont c1 && utf8Cont c2 && utf8Cont c3 && utf8Valid r
      | _ => false
    else if b = 244 then
      match rest with
      | c1 :: c2 :: c3 :: r =>
        decide (128 ≤ c1 ∧ c1 ≤ 143) && utf8Cont c2 && utf8Cont c3 && utf8Valid r
      | _ => false
    else false

/-! ## Name codec (`decord_name` / `decord_compressed_name` / `encode_dns_name`) -/

/-- The loop body of `decord_name`, with the `parts` accumulator explicit.

`sp` is the reader's position (`reader.position()`), which the source
leaves untouched while it walks the name with its local `cursor` variable;
`decord_compressed_name` (inlined here in the pointer branch) reads the
two pointer bytes at `reader.position()`, i.e. at `sp`, not at `cursor`.
The recursive call of `decord_compressed_name` starts a fresh
`decord_name` at the jumped-to offset (position and cursor both equal to
the offset, empty accumulator); its final reader position is discarded by
the `reader.set_position(cursor)` of the caller. -/
def nameLoop (buf : List Nat) : Nat → Nat → Nat → List (List Nat) → Res (List Nat × Nat)
  | 0, _, _, _ => .diverge
  | fuel + 1, sp, cursor, parts =>
    match buf[cursor]? with
    | none => .panic
    | some length =>
      if length = 0 then
        .ok (joinDots parts, cursor + 1)
      else if length &&& 192 ≠ 0 then
        match buf[sp]? with
        | none => .panic
        | some curr =>
          match buf[sp + 1]? with
          | none => .panic
          | some next =>
            match nameLoop buf fuel ((curr &&& 63) * 256 + next) ((curr &&& 63) * 256 + next) [] with
            | .ok (s, _) => .ok (joinDots (parts ++ [s]), cursor + 2)
            | .err e => .err e
            | .panic => .panic
            | .diverge => .diverge
      else
        if cursor + length + 1 ≤ buf.length then
          let lab := slice buf (cursor + 1) (cursor + length + 1)
          if utf8Valid lab then nameLoop buf fuel sp (cursor + length + 1) (parts ++ [lab])
          else .err .utf8
        else .panic

/-- `decord_name(reader)` with the reader at position `pos`: returns the
dot-joined name (as UTF-8 bytes) and the final reader position. -/
def decord_name (buf : List Nat) (fuel : Nat) (pos : Nat) : Res (List Nat × Nat) :=
  nameLoop buf fuel pos pos []

/-- Modelled from the spec (section 4.1), for comparison with
`decord_name`: a length byte is a compression pointer exactly when both of
its two high bits are set (value at least `0xC0`), and the 14-bit offset
is formed from the low 6 bits of the pointer byte itself together with the
byte following it.  Everything else follows the source. -/
def nameLoopSpec (buf : List Nat) : Nat → Nat → List (List Nat) → Res (List Nat × Nat)
  | 0, _, _ => .diverge
  | fuel + 1, cursor, parts =>
    match buf[cursor]? with
    | none => .panic
    | some length =>
      if length = 0 then
        .ok (joinDots parts, cursor + 1)
      else if 192 ≤ length then
        match buf[cursor + 1]? with
        | none => .panic
        | some next =>
          match nameLoopSpec buf fuel ((length &&& 63) * 256 + next) [] with
          | .ok (s, _) => .ok (joinDots (parts ++ [s]), cursor + 2)
          | .err e => .err e
          | .panic => .panic
          | .diverge => .diverge
      else
        if cursor + length + 1 ≤ buf.length then
          let lab := slice buf (cursor + 1) (cursor + length + 1)
          if utf8Valid lab then nameLoopSpec buf fuel (cursor + length + 1) (parts ++ [lab])
          else .err .utf8
        else .panic

/-- Spec-side name decoding (see `nameLoopSpec`). -/
def decord_name_spec (buf : List Nat) (fuel : Nat) (pos : Nat) : Res (List Nat × Nat) :=
  nameLoopSpec buf fuel pos []

/-- The per-label byte output of `encode_dns_name`, in `foldr` form:
`label.len() as u8` truncates modulo 256. -/
def encLabels : List (List Nat) → List Nat
  | [] => []
  | l :: ls => (l.length % 256) :: l ++ encLabels ls

/-- `encode_dns_name`: split the name on `'.'`, push each label's length
(cast `as u8`, hence `% 256` — the source performs no 63-byte check)
followed by the label's bytes, terminate with a zero byte.  The source's
`Result` return type notwithstanding, every path returns `Ok`. -/
def encode_dns_name (name : List Nat) : Res (List Nat) :=
  .ok ((splitOnDot name).foldl (fun acc l => acc ++ (l.length % 256) :: l) [] ++ [0])

/-! ## Record types, header, question, record -/

/-- `enum RecordType { A = 1 }`. -/
inductive RecordType where
  | A
deriving DecidableEq, Repr

/-- `enum Class { In = 1 }` (the source's field name `class` is a Lean
keyword; the embedding uses `cls` for fields of this type). -/
inductive Class where
  | In
deriving DecidableEq, Repr

/-- `RecordType as u16`. -/
def RecordType.toNat : RecordType → Nat
  | .A => 1

/-- `Class as u16`. -/
def Class.toNat : Class → Nat
  | .In => 1

/-- `num_enum::TryFromPrimitive` for `RecordType`: only discriminant 1. -/
def RecordType.try_from (n : Nat) : Option RecordType :=
  if n = 1 then some .A else none

/-- `num_enum::TryFromPrimitive` for `Class`: only discriminant 1. -/
def Class.try_from (n : Nat) : Option Class :=
  if n = 1 then some .In else none

/-- The six 16-bit header fields. -/
structure DnsHeader where
  id : Nat
  flags : Nat
  num_questions : Nat
  num_answers : Nat
  num_authorities : Nat
  num_additional : Nat
deriving DecidableEq, Repr

/-- `DnsHeader::to_bytes`: the six fields big-endian, concatenated. -/
def header_to_bytes (h : DnsHeader) : List Nat :=
  u16bytes h.id ++ u16bytes h.flags ++ u16bytes h.num_questions ++
    u16bytes h.num_answers ++ u16bytes h.num_authorities ++ u16bytes h.num_additional

/-- `DnsHeader::try_from(&[u8])`: six `extract_bytes!` reads at fixed
ranges `0..2` … `10..12`.  Each range indexing panics when the slice is
too short (the `try_into()?` itself can never fail on an exact 2-byte
range), so a buffer shorter than 12 bytes panics at the first
out-of-range field. -/
def DnsHeader.try_from (buf : List Nat) : Res DnsHeader :=
  if 12 ≤ buf.length then
    .ok ⟨u16be buf 0, u16be buf 2, u16be buf 4, u16be buf 6, u16be buf 8, u16be buf 10⟩
  else .panic

/-- `parse_header`: `read_exact` of 12 bytes (`Err(UnexpectedEof)` if fewer
remain), then `DnsHeader::try_from` on them; returns the header and the
advanced cursor. -/
def parse_header (buf : List Nat) (pos : Nat) : Res (DnsHeader × Nat) :=
  if pos + 12 ≤ buf.length then
    Res.bind (DnsHeader.try_from (slice buf pos (pos + 12))) fun h => .ok (h, pos + 12)
  else .err .eof

/-- A question: decoded name bytes, type and class. -/
structure DnsQuestion where
  name : List Nat
  kind : RecordType
  cls : Class
deriving DecidableEq, Repr

/-- `DnsQuestion::to_bytes`. -/
def question_to_bytes (q : DnsQuestion) : List Nat :=
  q.name ++ u16bytes q.kind.toNat ++ u16bytes q.cls.toNat

/-- `DnsQuestion::try_from((name, data))`: `kind` is evaluated first
(slicing `data[0..2]` panics below 2 bytes, then the enum conversion can
fail with `?` before `class` is ever evaluated), then `class` the same
way on `data[2..4]`. -/
def DnsQuestion.try_from (name : List Nat) (data : List Nat) : Res DnsQuestion :=
  if 2 ≤ data.length then
    match RecordType.try_from (u16be data 0) with
    | none => .err .unknownRecordType
    | some k =>
      if 4 ≤ data.length then
        match Class.try_from (u16be data 2) with
        | none => .err .unknownClass
        | some c => .ok ⟨name, k, c⟩
      else .panic
  else .panic

/-- `parse_question`: decode the name, `read_exact` 4 bytes, then
`DnsQuestion::try_from`. -/
def parse_question (buf : List Nat) (fuel : Nat) (pos : Nat) : Res (DnsQuestion × Nat) :=
  Res.bind (decord_name buf fuel pos) fun np =>
    if np.2 + 4 ≤ buf.length then
      Res.bind (DnsQuestion.try_from np.1 (slice buf np.2 (np.2 + 4))) fun q =>
        .ok (q, np.2 + 4)
    else .err .eof

/-- A resource record. -/
structure DnsRecord where
  name : List Nat
  kind : RecordType
  cls : Class
  ttl : Nat
  data : List Nat
deriving DecidableEq, Repr

/-- `DnsRecord::try_from((name, reader))`: `read_exact` the fixed 10-byte
block (propagating `UnexpectedEof` with `?`), extract kind / class / ttl /
data-length, then `read_exact` the declared `data_len` bytes into a
zero-initialised vector with the result DISCARDED (`let _ =` in the
source): when fewer than `data_len` bytes remain, `Cursor::read_exact`
fails without copying anything or advancing the position, so the record
keeps the all-zero vector and the cursor stays put, and decoding
nevertheless continues to the enum conversions and returns `Ok`. -/
def DnsRecord.try_from (name : List Nat) (buf : List Nat) (pos : Nat) : Res (DnsRecord × Nat) :=
  if pos + 10 ≤ buf.length then
    let block := slice buf pos (pos + 10)
    let dataLen := u16be block 8
    let dataRead :=
      if pos + 10 + dataLen ≤ buf.length then
        (slice buf (pos + 10) (pos + 10 + dataLen), pos + 10 + dataLen)
      else (List.replicate dataLen 0, pos + 10)
    match RecordType.try_from (u16be block 0) with
    | none => .err .unknownRecordType
    | some k =>
      match Class.try_from (u16be block 2) with
      | none => .err .unknownClass
      | some c => .ok (⟨name, k, c, u32be block 4, dataRead.1⟩, dataRead.2)
  else .err .eof

/-- `parse_record`: decode the name, then `DnsRecord::try_from`. -/
def parse_record (buf : List Nat) (fuel : Nat) (pos : Nat) : Res (DnsRecord × Nat) :=
  Res.bind (decord_name buf fuel pos) fun np => DnsRecord.try_from np.1 buf np.2

/-! ## Packet parser and resolver tail -/

/-- `(0..n).map(|_| parse(..)).collect::<Result<Vec<_>>>()`: `n` parses in
sequence over the shared cursor, stopping at the first non-`ok` outcome. -/
def parseN {α : Type} (f : Nat → Res (α × Nat)) : Nat → Nat → Res (List α × Nat)
  | 0, pos => .ok ([], pos)
  | n + 1, pos =>
    match f pos with
    | .ok (a, pos') =>
      match parseN f n pos' with
      | .ok (as, pos'') => .ok (a :: as, pos'')
      | .err e => .err e
      | .panic => .panic
      | .diverge => .diverge
    | .err e => .err e
    | .panic => .panic
    | .diverge => .diverge

/-- The parsed packet. -/
structure DnsPacket where
  header : DnsHeader
  questions : List DnsQuestion
  answers : List DnsRecord
  authorities : List DnsRecord
  additional : List DnsRecord
deriving DecidableEq, Repr

/-- `parse_dns_packet`: header, then `num_questions` questions, then
`num_answers`, `num_authorities`, `num_additional` records, all over one
shared cursor starting at 0; the first failure propagates through `?`. -/
def parse_dns_packet (buf : List Nat) (fuel : Nat) : Res DnsPacket :=
  Res.bind (parse_header buf 0) fun hp =>
    Res.bind (parseN (parse_question buf fuel) hp.1.num_questions hp.2) fun qp =>
      Res.bind (parseN (parse_record buf fuel) hp.1.num_answers qp.2) fun ansp =>
        Res.bind (parseN (parse_record buf fuel) hp.1.num_authorities ansp.2) fun authp =>
          Res.bind (parseN (parse_record buf fuel) hp.1.num_additional authp.2) fun addp =>
            .ok ⟨hp.1, qp.1, ansp.1, authp.1, addp.1⟩

/-- `Ipv4Addr::new(o1, o2, o3, o4)`. -/
structure Ipv4 where
  o1 : Nat
  o2 : Nat
  o3 : Nat
  o4 : Nat
deriving DecidableEq, Repr

/-- The answer-extraction tail of `lookup_domain` (line 38):
`packet.answers[0]` panics when there is no answer, `data[0..4]` panics
when the data holds fewer than 4 bytes, and otherwise the slice pattern
`[o1, o2, o3, o4, ..]` is matched against the 4-byte slice, with the
`let`-`else` branch producing `Err(anyhow!("data is not correct format."))`. -/
def lookup_extract (p : DnsPacket) : Res Ipv4 :=
  match p.answers with
  | [] => .panic
  | a :: _ =>
    if a.data.length < 4 then .panic
    else
      match slice a.data 0 4 with
      | o1 :: o2 :: o3 :: o4 :: _ => .ok ⟨o1, o2, o3, o4⟩
      | _ => .err .format

/-- `build_query(domain_name, record_type)` with the randomly drawn id made
an explicit argument: header with the recursion-desired flag (`1 << 8`),
one question, followed by the encoded question. -/
def build_query (id : Nat) (domain : List Nat) (rt : RecordType) : Res (List Nat) :=
  Res.bind (encode_dns_name domain) fun name =>
    .ok (header_to_bytes ⟨id, 256, 1, 0, 0, 0⟩ ++ question_to_bytes ⟨name, rt, Class.In⟩)

/-- The pure part of `lookup_domain` applied to a received response
buffer: parse, then extract the first answer as an IPv4 address. -/
def lookup_domain_model (response : List Nat) (fuel : Nat) : Res Ipv4 :=
  Res.bind (parse_dns_packet response fuel) lookup_extract

/-- The bytes of the string `"www.example.com"`. -/
def wwwName : List Nat :=
  [119, 119, 119, 46, 101, 120, 97, 109, 112, 108, 101, 46, 99, 111, 109]

/-! ## Byte and list helper lemmas -/

theorem and192_eq_zero : ∀ b, b < 64 → b &&& 192 = 0 := by decide

theorem and192_ne_zero : ∀ b, b < 256 → 64 ≤ b → b &&& 192 ≠ 0 := by decide

theorem getElem?_append_length {α : Type} (pre rest : List α) (k : Nat) :
    (pre ++ rest)[pre.length + k]? = rest[k]? := by
  rw [List.getElem?_append_right (Nat.le_add_right _ _)]
  congr 1
  omega

theorem drop_append_length (pre rest : List Nat) (a : Nat) :
    (pre ++ rest).drop (pre.length + a) = rest.drop a := by
  rw [← List.drop_drop, List.drop_left]

theorem slice_append_length (pre rest : List Nat) (a b : Nat) :
    slice (pre ++ rest) (pre.length + a) (pre.length + b) = slice rest a b := by
  unfold slice
  rw [drop_append_length]
  congr 1
  omega

theorem getElem?_pre_cons {α : Type} (pre rest : List α) (x : α) :
    (pre ++ x :: rest)[pre.length]? = some x := by
  have h := getElem?_append_length pre (x :: rest) 0
  rw [Nat.add_zero] at h
  rw [h]
  simp

theorem slice_pre_cons (pre l t : List Nat) (x : Nat) :
    slice (pre ++ x :: (l ++ t)) (pre.length + 1) (pre.length + l.length + 1) = l := by
  unfold slice
  have hd : (pre ++ x :: (l ++ t)).drop (pre.length + 1) = l ++ t := by
    have h := drop_append_length pre (x :: (l ++ t)) 1
    rw [List.drop_succ_cons, List.drop_zero] at h
    exact h
  rw [hd, show pre.length + l.length + 1 - (pre.length + 1) = l.length from by omega,
    List.take_left]

/-! ## `splitOnDot` / `joinDots` / `encLabels` lemmas -/

theorem splitOnDot_ne_nil : ∀ l : List Nat, splitOnDot l ≠ [] := by
  intro l
  induction l with
  | nil => simp [splitOnDot]
  | cons b r ih =>
    simp only [splitOnDot]
    split
    · simp
    · match h : splitOnDot r with
      | x :: xs => simp
      | [] => exact absurd h ih

theorem splitOnDot_no46 (l : List Nat) (h : (46 : Nat) ∉ l) : splitOnDot l = [l] := by
  induction l with
  | nil => rfl
  | cons b r ih =>
    have hb : b ≠ 46 := fun hb => h (by simp [hb])
    have hr : (46 : Nat) ∉ r := fun hr => h (by simp [hr])
    simp only [splitOnDot, if_neg hb, ih hr]

theorem splitOnDot_append46 (l t : List Nat) (h : (46 : Nat) ∉ l) :
    splitOnDot (l ++ 46 :: t) = l :: splitOnDot t := by
  induction l with
  | nil => simp [splitOnDot]
  | cons b r ih =>
    have hb : b ≠ 46 := fun hb => h (by simp [hb])
    have hr : (46 : Nat) ∉ r := fun hr => h (by simp [hr])
    have hstep : (b :: r) ++ 46 :: t = b :: (r ++ 46 :: t) := rfl
    rw [hstep]
    simp only [splitOnDot, if_neg hb]
    rw [ih hr]

theorem split_join (ls : List (List Nat)) (hne : ls ≠ [])
    (h46 : ∀ l ∈ ls, (46 : Nat) ∉ l) : splitOnDot (joinDots ls) = ls := by
  induction ls with
  | nil => exact absurd rfl hne
  | cons l ls2 ih =>
    match ls2 with
    | [] =>
      simp only [joinDots]
      exact splitOnDot_no46 l (h46 l (by simp))
    | l2 :: rest =>
      have hjoin : joinDots (l :: l2 :: rest) = l ++ 46 :: joinDots (l2 :: rest) := rfl
      rw [hjoin, splitOnDot_append46 _ _ (h46 l (by simp)),
        ih (by simp) (fun x hx => h46 x (by simp [hx]))]

theorem foldl_encLabels (ls : List (List Nat)) :
    ∀ acc, ls.foldl (fun acc l => acc ++ (l.length % 256) :: l) acc = acc ++ encLabels ls := by
  induction ls with
  | nil => intro acc; simp [encLabels]
  | cons l rest ih =>
    intro acc
    simp only [List.foldl_cons, ih, encLabels, List.cons_append, List.append_assoc]

theorem encode_joinDots (ls : List (List Nat)) (hne : ls ≠ [])
    (h46 : ∀ l ∈ ls, (46 : Nat) ∉ l) :
    encode_dns_name (joinDots ls) = .ok (encLabels ls ++ [0]) := by
  simp only [encode_dns_name, split_join ls hne h46, foldl_encLabels, List.nil_append]

/-! ## The decode loop on encoded labels -/

theorem nameLoop_encLabels (ls : List (List Nat)) :
    ∀ (pre post : List Nat) (parts : List (List Nat)) (sp fuel : Nat),
      (∀ l ∈ ls, 0 < l.length ∧ l.length ≤ 63 ∧ utf8Valid l = true) →
      nameLoop (pre ++ encLabels ls ++ 0 :: post) (fuel + ls.length + 1) sp pre.length parts
        = .ok (joinDots (parts ++ ls), pre.length + (encLabels ls).length + 1) := by
  induction ls with
  | nil =>
    intro pre post parts sp fuel _
    have hbuf : pre ++ encLabels ([] : List (List Nat)) ++ 0 :: post = pre ++ 0 :: post := by
      simp [encLabels]
    have hfuel : fuel + List.length ([] : List (List Nat)) + 1 = fuel + 1 := by simp
    rw [hbuf, hfuel]
    have hb : (pre ++ 0 :: post)[pre.length]? = some 0 := getElem?_pre_cons pre post 0
    simp only [nameLoop, hb]
    simp [encLabels]
  | cons l rest ih =>
    intro pre post parts sp fuel hcond
    have hl := hcond l (List.mem_cons_self l rest)
    have hrest : ∀ x ∈ rest, 0 < x.length ∧ x.length ≤ 63 ∧ utf8Valid x = true :=
      fun x hx => hcond x (List.mem_cons_of_mem l hx)
    have hmod : l.length % 256 = l.length := Nat.mod_eq_of_lt (by omega)
    have hbuf : pre ++ encLabels (l :: rest) ++ 0 :: post
        = pre ++ l.length :: (l ++ (encLabels rest ++ 0 :: post)) := by
      simp [encLabels, hmod, List.cons_append, List.append_assoc]
    have hfuel : fuel + (l :: rest).length + 1 = (fuel + rest.length + 1) + 1 := by
      simp only [List.length_cons]
      omega
    rw [hbuf, hfuel]
    have hb := getElem?_pre_cons pre (l ++ (encLabels rest ++ 0 :: post)) l.length
    have hne : ¬(l.length = 0) := by omega
    have h192 : ¬(l.length &&& 192 ≠ 0) := by
      simp only [ne_eq, not_not]
      exact and192_eq_zero l.length (by omega)
    have hbound : pre.length + l.length + 1
        ≤ (pre ++ l.length :: (l ++ (encLabels rest ++ 0 :: post))).length := by
      simp only [List.length_append, List.length_cons]
      omega
    have hslice := slice_pre_cons pre l (encLabels rest ++ 0 :: post) l.length
    generalize hF : fuel + rest.length + 1 = F
    simp only [nameLoop, hb, if_neg hne, if_neg h192, if_pos hbound, hslice, hl.2.2, if_pos]
    subst hF
    have hpre2 : pre.length + l.length + 1 = (pre ++ l.length :: l).length := by
      simp only [List.length_append, List.length_cons]
      omega
    have hbuf2 : pre ++ l.length :: (l ++ (encLabels rest ++ 0 :: post))
        = (pre ++ l.length :: l) ++ encLabels rest ++ 0 :: post := by
      simp [List.cons_append, List.append_assoc]
    rw [hpre2, hbuf2, ih (pre ++ l.length :: l) post (parts ++ [l]) sp fuel hrest]
    have hjoin : (parts ++ [l]) ++ rest = parts ++ l :: rest := by
      simp [List.append_assoc]
    rw [hjoin]
    have hlen : (pre ++ l.length :: l).length + (encLabels rest).length + 1
        = pre.length + (encLabels (l :: rest)).length + 1 := by
      simp only [List.length_append, List.length_cons, encLabels, List.cons_append]
      omega
    rw [hlen]

/-! ## Claim C1 — name decoding without loop or bounds protection -/

theorem nameLoop_selfptr_diverge : ∀ fuel, nameLoop [192, 0] fuel 0 0 [] = .diverge := by
  intro fuel
  induction fuel with
  | zero => rfl
  | succ n ih =>
    simp [nameLoop]
    rw [show ((192 &&& 63) * 256 : Nat) = 0 from by decide, ih]

/-- Claim C1: the source's name decoder has no cycle or bounds protection:
on the two-byte buffer `[0xC0, 0x00]` — a compression pointer targeting its
own offset 0 — `decord_name` recurses forever (it is `diverge` at every
fuel), and on the one-byte buffer `[0x05]` the declared 5-byte label read
exceeds the buffer and the decoder panics on the out-of-range slice; in
neither case is a malformed-name error returned. -/
theorem decord_name_unprotected :
    (∀ fuel, decord_name [192, 0] fuel 0 = .diverge) ∧
    (∀ fuel, decord_name [5] (fuel + 1) 0 = .panic) := by
  constructor
  · intro fuel
    exact nameLoop_selfptr_diverge fuel
  · intro fuel
    simp [decord_name, nameLoop]

/-! ## Claim C2 — the compression-pointer branch -/

/-- Claim C2 (counterexample): the claim's pointer test and offset source
are both wrong for the code.  First input `[0x40, 0x02, 0x00]`: the byte
`0x40` has only one of the two high bits set, yet the code takes the
pointer branch (it returns `Ok` with the cursor at 2), while a decoder
that treats bytes below `0xC0` as label lengths would attempt a 64-byte
label read and fail out of bounds.  Second input
`[3, 'w', 'w', 'w', 0xC0, 0x06, 0, 0]`: for a pointer that follows a
label, the code forms the offset from the two bytes at the position where
name decoding began — here `(3 &&& 63) * 256 + 119 = 887`, out of range,
so the code panics — not from the pointer byte and its successor
(`0xC0`/`0x06`, offset 6), which is what the claim describes and what
`decord_name_spec` implements. -/
theorem pointer_branch_counterexample :
    (decord_name [64, 2, 0] 5 0 = .ok ([], 2) ∧
      decord_name_spec [64, 2, 0] 5 0 = .panic) ∧
    (decord_name [3, 119, 119, 119, 192, 6, 0, 0] 5 0 = .panic ∧
      decord_name_spec [3, 119, 119, 119, 192, 6, 0, 0] 5 0
        = .ok ([119, 119, 119, 46], 6)) := by
  refine ⟨⟨?_, ?_⟩, ?_, ?_⟩ <;> decide

/-- Claim C2 (amended): during name decoding a length byte is treated as a
compression pointer exactly when at least one of its two high bits is set
(value at least `0x40`, i.e. `b &&& 0xC0 ≠ 0`).  In that case the decoder
reads the two bytes at the position where decoding of the present name
began (the reader's position `sp`) — which are the pointer byte and its
successor precisely when the pointer is the first element of the name —
forms the 14-bit offset from the low 6 bits of the first and all of the
second, appends the name decoded from that offset, returns immediately,
and leaves the cursor exactly 2 bytes past the pointer byte, never at the
jumped-to location.  A nonzero byte below `0x40` is instead a label
length. -/
theorem pointer_branch_amended :
    (∀ buf fuel sp cursor parts b curr next s p,
      buf[cursor]? = some b → b < 256 → 64 ≤ b →
      buf[sp]? = some curr → buf[sp + 1]? = some next →
      nameLoop buf fuel ((curr &&& 63) * 256 + next) ((curr &&& 63) * 256 + next) []
        = .ok (s, p) →
      nameLoop buf (fuel + 1) sp cursor parts = .ok (joinDots (parts ++ [s]), cursor + 2)) ∧
    (∀ buf fuel sp cursor parts b,
      buf[cursor]? = some b → 0 < b → b < 64 →
      cursor + b + 1 ≤ buf.length →
      utf8Valid (slice buf (cursor + 1) (cursor + b + 1)) = true →
      nameLoop buf (fuel + 1) sp cursor parts
        = nameLoop buf fuel sp (cursor + b + 1) (parts ++ [slice buf (cursor + 1) (cursor + b + 1)])) := by
  constructor
  · intro buf fuel sp cursor parts b curr next s p hb hb256 hb64 hcurr hnext hrec
    have hbne : b ≠ 0 := by omega
    have h192 : b &&& 192 ≠ 0 := and192_ne_zero b hb256 hb64
    simp only [nameLoop, hb, hcurr, hnext, if_neg hbne, if_pos h192, hrec]
  · intro buf fuel sp cursor parts b hb hbpos hb64 hbound hutf
    have hbne : b ≠ 0 := by omega
    have h192 : ¬(b &&& 192 ≠ 0) := by
      simp only [ne_eq, not_not]
      exact and192_eq_zero b hb64
    simp only [nameLoop, hb, if_neg hbne, if_neg h192, if_pos hbound, hutf, if_pos]

/-- Witness for `pointer_branch_amended`: on `[0xC0, 0x02, 0x00]` the
pointer at offset 0 jumps to the empty name at offset 2 and leaves the
cursor at 2; on `[0x01, 'a', 0x00]` the length byte 1 consumes the label
`"a"`. -/
theorem pointer_branch_amended_witness :
    nameLoop [192, 2, 0] 2 0 0 [] = .ok ([], 2) ∧
    nameLoop [1, 97, 0] 2 0 0 [] = nameLoop [1, 97, 0] 1 0 2 [[97]] :=
  ⟨pointer_branch_amended.1 [192, 2, 0] 1 0 0 [] 192 192 2 [] 3
      rfl (by decide) (by decide) rfl rfl (by decide),
    pointer_branch_amended.2 [1, 97, 0] 1 0 0 [] 1
      rfl (by decide) (by decide) (by decide) (by decide)⟩

/-! ## Claim C3 — records whose declared data-length exceeds the buffer -/

/-- Claim C3: the source discards the result of the data read
(`let _ = reader.read_exact(&mut data)`), so a record whose declared
data-length (here 4, with 0 bytes remaining) would read past the end of
the received buffer is NOT rejected: decoding returns `Ok` with the
zero-initialised data vector and the cursor unmoved, instead of the
truncated-buffer error the claim requires.  (It does not read out of
bounds.) -/
theorem record_truncated_data_silently_succeeds :
    parse_record [0, 0, 1, 0, 1, 0, 0, 0, 0, 0, 4] 1 0
      = .ok (⟨[], .A, .In, 0, [0, 0, 0, 0]⟩, 11) := by
  decide

/-! ## Claims C5 and C10 — answer extraction in `lookup_domain` -/

theorem lookup_extract_first4 (p : DnsPacket) (a : DnsRecord) (rest : List DnsRecord)
    (hans : p.answers = a :: rest) (hlen : 4 ≤ a.data.length) :
    lookup_extract p
      = .ok ⟨a.data.getD 0 0, a.data.getD 1 0, a.data.getD 2 0, a.data.getD 3 0⟩ := by
  obtain ⟨d0, d1, d2, d3, t, hd⟩ :
      ∃ d0 d1 d2 d3 t, a.data = d0 :: d1 :: d2 :: d3 :: t := by
    match hdata : a.data, hlen with
    | d0 :: d1 :: d2 :: d3 :: t, _ => exact ⟨d0, d1, d2, d3, t, rfl⟩
  simp only [lookup_extract, hans, hd]
  rw [if_neg (by simp only [List.length_cons]; omega)]
  rfl

/-- Claim C5 (counterexample): a response that parses to a packet with no
answers — here twelve zero bytes, an all-zero header with every section
count 0 — makes `lookup_domain` panic on `packet.answers[0]` (index out
of bounds) instead of returning a typed error. -/
theorem lookup_no_answers_counterexample :
    parse_dns_packet (List.replicate 12 0) 1
      = .ok ⟨⟨0, 0, 0, 0, 0, 0⟩, [], [], [], []⟩ ∧
    lookup_domain_model (List.replicate 12 0) 1 = .panic := by
  constructor <;> decide

/-- Claim C5 (amended): for every parsed response packet whose first
answer exists and carries at least 4 data bytes, the lookup operation
returns the IPv4 address formed from the first 4 data bytes; when there
are no answers, or when the first answer's data is shorter than 4 bytes,
the code panics (index respectively slice out of bounds) rather than
returning a typed error; data longer than 4 bytes is not rejected. -/
theorem lookup_extract_amended :
    (∀ p : DnsPacket, p.answers = [] → lookup_extract p = .panic) ∧
    (∀ (p : DnsPacket) (a : DnsRecord) rest,
      p.answers = a :: rest → a.data.length < 4 → lookup_extract p = .panic) ∧
    (∀ (p : DnsPacket) (a : DnsRecord) rest,
      p.answers = a :: rest → 4 ≤ a.data.length →
      lookup_extract p
        = .ok ⟨a.data.getD 0 0, a.data.getD 1 0, a.data.getD 2 0, a.data.getD 3 0⟩) := by
  refine ⟨?_, ?_, ?_⟩
  · intro p hp
    simp [lookup_extract, hp]
  · intro p a rest hp hlen
    simp [lookup_extract, hp, if_pos hlen]
  · intro p a rest hp hlen
    exact lookup_extract_first4 p a rest hp hlen

/-- Witness for `lookup_extract_amended` on concrete packets: no answers
panics; a 2-byte answer panics; a 5-byte answer yields its first four
octets. -/
theorem lookup_extract_amended_witness :
    lookup_extract ⟨⟨0, 0, 0, 0, 0, 0⟩, [], [], [], []⟩ = .panic ∧
    lookup_extract ⟨⟨0, 0, 0, 0, 0, 0⟩, [], [⟨[], .A, .In, 0, [9, 9]⟩], [], []⟩ = .panic ∧
    lookup_extract ⟨⟨0, 0, 0, 0, 0, 0⟩, [], [⟨[], .A, .In, 0, [1, 2, 3, 4, 5]⟩], [], []⟩
      = .ok ⟨1, 2, 3, 4⟩ :=
  ⟨lookup_extract_amended.1 ⟨⟨0, 0, 0, 0, 0, 0⟩, [], [], [], []⟩ rfl,
    lookup_extract_amended.2.1 ⟨⟨0, 0, 0, 0, 0, 0⟩, [], [⟨[], .A, .In, 0, [9, 9]⟩], [], []⟩
      ⟨[], .A, .In, 0, [9, 9]⟩ [] rfl (by decide),
    lookup_extract_amended.2.2
      ⟨⟨0, 0, 0, 0, 0, 0⟩, [], [⟨[], .A, .In, 0, [1, 2, 3, 4, 5]⟩], [], []⟩
      ⟨[], .A, .In, 0, [1, 2, 3, 4, 5]⟩ [] rfl (by decide)⟩

/-- Claim C10: the `"data is not correct format."` branch of
`lookup_domain` is unreachable — the slice pattern `[o1, o2, o3, o4, ..]`
always matches the 4-byte slice `data[0..4]` — so whenever the first
answer exists and has at least 4 data bytes (even more than 4), the
lookup returns the IPv4 address formed from the first 4 data bytes, and
no packet whatsoever makes the extraction return that error value. -/
theorem format_error_unreachable :
    (∀ (p : DnsPacket) (a : DnsRecord) rest,
      p.answers = a :: rest → 4 ≤ a.data.length →
      lookup_extract p
        = .ok ⟨a.data.getD 0 0, a.data.getD 1 0, a.data.getD 2 0, a.data.getD 3 0⟩) ∧
    (∀ p : DnsPacket, lookup_extract p ≠ .err .format) := by
  constructor
  · exact lookup_extract_first4
  · intro p
    match hp : p.answers with
    | [] => simp [lookup_extract, hp]
    | a :: rest =>
      by_cases hlen : 4 ≤ a.data.length
      · rw [lookup_extract_first4 p a rest hp hlen]
        simp
      · simp [lookup_extract, hp, if_pos (by omega : a.data.length < 4)]

/-- Witness for `format_error_unreachable` on a concrete packet with a
6-byte first answer. -/
theorem format_error_unreachable_witness :
    lookup_extract ⟨⟨1, 0, 1, 1, 0, 0⟩, [], [⟨[0], .A, .In, 7, [8, 8, 8, 8, 0, 1]⟩], [], []⟩
      = .ok ⟨8, 8, 8, 8⟩ ∧
    lookup_extract ⟨⟨1, 0, 1, 1, 0, 0⟩, [], [], [], []⟩ ≠ .err .format :=
  ⟨format_error_unreachable.1
      ⟨⟨1, 0, 1, 1, 0, 0⟩, [], [⟨[0], .A, .In, 7, [8, 8, 8, 8, 0, 1]⟩], [], []⟩
      ⟨[0], .A, .In, 7, [8, 8, 8, 8, 0, 1]⟩ [] rfl (by decide),
    format_error_unreachable.2 ⟨⟨1, 0, 1, 1, 0, 0⟩, [], [], [], []⟩⟩

/-! ## Claim C4 — decode after encode -/

/-- Claim C4 (counterexample): the name `"a."` (bytes `[97, 46]`) has
labels `"a"` and `""`, each at most 63 bytes and neither containing a
literal `'.'`, yet the empty trailing label encodes as the byte 0, which
the decoder takes as the name terminator: decoding the encoding yields
`"a"`, not `"a."`. -/
theorem decode_encode_counterexample :
    encode_dns_name [97, 46] = .ok [1, 97, 0, 0] ∧
    decord_name [1, 97, 0, 0] 2 0 = .ok ([97], 3) ∧
    ([97] : List Nat) ≠ [97, 46] := by
  refine ⟨?_, ?_, ?_⟩ <;> decide

/-- Claim C4 (amended): for every domain name made of labels that are
each NONEMPTY, at most 63 bytes, free of a literal `'.'` (byte 46), and
valid UTF-8 (automatic for a Rust string split on `'.'`), decoding the
encoding of the name returns the original name, consuming the entire
encoding.  (Names with an empty label other than the whole name being
empty do not round-trip, per the counterexample.) -/
theorem decode_encode_roundtrip (labels : List (List Nat)) (bs : List Nat)
    (hne : labels ≠ [])
    (hlab : ∀ l ∈ labels, 0 < l.length ∧ l.length ≤ 63 ∧ (46 : Nat) ∉ l ∧ utf8Valid l = true)
    (henc : encode_dns_name (joinDots labels) = .ok bs) :
    decord_name bs (labels.length + 1) 0 = .ok (joinDots labels, bs.length) := by
  have h46 : ∀ l ∈ labels, (46 : Nat) ∉ l := fun l hl => (hlab l hl).2.2.1
  have henc2 := encode_joinDots labels hne h46
  rw [henc] at henc2
  have hbs : bs = encLabels labels ++ [0] := by
    injection henc2
  have hkey := nameLoop_encLabels labels [] [] [] 0 0
    (fun l hl => ⟨(hlab l hl).1, (hlab l hl).2.1, (hlab l hl).2.2.2⟩)
  rw [decord_name, hbs]
  simpa [List.length_append] using hkey

/-- Witness for `decode_encode_roundtrip`: the one-label name `"a"`. -/
theorem decode_encode_roundtrip_witness :
    decord_name [1, 97, 0] 2 0 = .ok (joinDots [[97]], 3) :=
  decode_encode_roundtrip [[97]] [1, 97, 0] (by decide) (by decide) (by decide)

/-! ## Claim C6 — name encoding -/

/-- Claim C6 (counterexample): a 64-byte label (64 copies of `'a'`) does
NOT make `encode_dns_name` fail: the source performs no length check and
returns `Ok`, emitting the length byte 64 followed by the raw label. -/
theorem encode_long_label_counterexample :
    encode_dns_name (List.replicate 64 97) = .ok (64 :: (List.replicate 64 97 ++ [0])) := by
  decide

theorem encLabels_foldr (ls : List (List Nat)) (hlen : ∀ l ∈ ls, l.length ≤ 63) :
    encLabels ls ++ [0] = ls.foldr (fun l acc => l.length :: (l ++ acc)) [0] := by
  induction ls with
  | nil => rfl
  | cons l rest ih =>
    have hmod : l.length % 256 = l.length :=
      Nat.mod_eq_of_lt (by have := hlen l (by simp); omega)
    have hrest := ih (fun x hx => hlen x (by simp [hx]))
    simp only [encLabels, List.foldr_cons, hmod, List.cons_append, List.append_assoc, hrest]

/-- Claim C6 (amended): `encode_dns_name` never fails — for an input
whose labels are all at most 63 bytes it emits, for each label, a length
byte equal to the label's length followed by the label's raw bytes,
terminated by a single zero byte; a longer label does not cause an error
but gets the length byte `len % 256` (see the counterexample). -/
theorem encode_dns_name_amended (labels : List (List Nat)) (hne : labels ≠ [])
    (h46 : ∀ l ∈ labels, (46 : Nat) ∉ l) (hlen : ∀ l ∈ labels, l.length ≤ 63) :
    encode_dns_name (joinDots labels)
      = .ok (labels.foldr (fun l acc => l.length :: (l ++ acc)) [0]) := by
  rw [encode_joinDots labels hne h46, encLabels_foldr labels hlen]

/-- Witness for `encode_dns_name_amended`: the name `"a"`. -/
theorem encode_dns_name_amended_witness :
    encode_dns_name (joinDots [[97]]) = .ok [1, 97, 0] :=
  encode_dns_name_amended [[97]] (by decide) (by decide) (by decide)

/-! ## Claim C9 — closed enumerations -/

/-- Claim C9: every 16-bit value other than 1 fails the `RecordType` and
`Class` conversions, and decoding a question or a record whose type field
(respectively class field) holds such a value fails with the
unknown-type (respectively unknown-class) error; no default is
substituted. -/
theorem unknown_type_class_fail :
    (∀ n, n ≠ 1 → RecordType.try_from n = none) ∧
    (∀ n, n ≠ 1 → Class.try_from n = none) ∧
    (∀ name data, 2 ≤ data.length → u16be data 0 ≠ 1 →
      DnsQuestion.try_from name data = .err .unknownRecordType) ∧
    (∀ name data, 4 ≤ data.length → u16be data 0 = 1 → u16be data 2 ≠ 1 →
      DnsQuestion.try_from name data = .err .unknownClass) ∧
    (∀ name buf pos, pos + 10 ≤ buf.length → u16be (slice buf pos (pos + 10)) 0 ≠ 1 →
      DnsRecord.try_from name buf pos = .err .unknownRecordType) ∧
    (∀ name buf pos, pos + 10 ≤ buf.length → u16be (slice buf pos (pos + 10)) 0 = 1 →
      u16be (slice buf pos (pos + 10)) 2 ≠ 1 →
      DnsRecord.try_from name buf pos = .err .unknownClass) := by
  refine ⟨?_, ?_, ?_, ?_, ?_, ?_⟩
  · intro n hn
    simp [RecordType.try_from, hn]
  · intro n hn
    simp [Class.try_from, hn]
  · intro name data h2 hk
    simp [DnsQuestion.try_from, if_pos h2, RecordType.try_from, hk]
  · intro name data h4 hk hc
    simp [DnsQuestion.try_from, if_pos (by omega : 2 ≤ data.length), RecordType.try_from, hk,
      if_pos h4, Class.try_from, hc]
  · intro name buf pos h10 hk
    simp [DnsRecord.try_from, if_pos h10, RecordType.try_from, hk]
  · intro name buf pos h10 hk hc
    simp [DnsRecord.try_from, if_pos h10, RecordType.try_from, hk, Class.try_from, hc]

/-- Witness for `unknown_type_class_fail` at value 2 and at concrete
question/record buffers. -/
theorem unknown_type_class_fail_witness :
    RecordType.try_from 2 = none ∧
    Class.try_from 2 = none ∧
    DnsQuestion.try_from [] [0, 2, 0, 1] = .err .unknownRecordType ∧
    DnsQuestion.try_from [] [0, 1, 0, 2] = .err .unknownClass ∧
    DnsRecord.try_from [] [0, 5, 0, 1, 0, 0, 0, 0, 0, 0] 0 = .err .unknownRecordType ∧
    DnsRecord.try_from [] [0, 1, 0, 3, 0, 0, 0, 0, 0, 0] 0 = .err .unknownClass :=
  ⟨unknown_type_class_fail.1 2 (by decide),
    unknown_type_class_fail.2.1 2 (by decide),
    unknown_type_class_fail.2.2.1 [] [0, 2, 0, 1] (by decide) (by decide),
    unknown_type_class_fail.2.2.2.1 [] [0, 1, 0, 2] (by decide) (by decide) (by decide),
    unknown_type_class_fail.2.2.2.2.1 [] [0, 5, 0, 1, 0, 0, 0, 0, 0, 0] 0 (by decide) (by decide),
    unknown_type_class_fail.2.2.2.2.2 [] [0, 1, 0, 3, 0, 0, 0, 0, 0, 0] 0 (by decide) (by decide)
      (by decide)⟩

/-! ## Claim C7 — packet parsing order and fail-fast behaviour -/

theorem parseN_length {α : Type} (f : Nat → Res (α × Nat)) :
    ∀ (n pos : Nat) (l : List α) (pos' : Nat), parseN f n pos = .ok (l, pos') → l.length = n := by
  intro n
  induction n with
  | zero =>
    intro pos l pos' h
    simp only [parseN, Res.ok.injEq, Prod.mk.injEq] at h
    rw [← h.1]
    rfl
  | succ k ih =>
    intro pos l pos' h
    simp only [parseN] at h
    split at h
    · split at h
      · rename_i as p2 hr
        simp only [Res.ok.injEq, Prod.mk.injEq] at h
        rw [← h.1]
        simp [ih _ as p2 hr]
      · simp at h
      · simp at h
      · simp at h
    · simp at h
    · simp at h
    · simp at h

/-- Claim C7: `parse_dns_packet` decodes the 12-byte header first, then
exactly `num_questions` questions, then `num_answers`, `num_authorities`
and `num_additional` records, in that fixed order over one shared cursor
(each stage starting at the position the previous stage ended at), and
the first decode failure in any element aborts the whole packet with
that error: a header failure, a failure in the question run, a failure in
the answer run, and a failure of the first element of a run each
propagate unchanged, with no partial result. -/
theorem parse_dns_packet_structure :
    (∀ buf fuel h p1 qs p2 ans p3 auth p4 add p5,
      parse_header buf 0 = .ok (h, p1) →
      parseN (parse_question buf fuel) h.num_questions p1 = .ok (qs, p2) →
      parseN (parse_record buf fuel) h.num_answers p2 = .ok (ans, p3) →
      parseN (parse_record buf fuel) h.num_authorities p3 = .ok (auth, p4) →
      parseN (parse_record buf fuel) h.num_additional p4 = .ok (add, p5) →
      parse_dns_packet buf fuel = .ok ⟨h, qs, ans, auth, add⟩ ∧
        qs.length = h.num_questions ∧ ans.length = h.num_answers ∧
        auth.length = h.num_authorities ∧ add.length = h.num_additional) ∧
    (∀ buf fuel e, parse_header buf 0 = .err e → parse_dns_packet buf fuel = .err e) ∧
    (∀ buf fuel h p1 e, parse_header buf 0 = .ok (h, p1) →
      parseN (parse_question buf fuel) h.num_questions p1 = .err e →
      parse_dns_packet buf fuel = .err e) ∧
    (∀ buf fuel h p1 qs p2 e, parse_header buf 0 = .ok (h, p1) →
      parseN (parse_question buf fuel) h.num_questions p1 = .ok (qs, p2) →
      parseN (parse_record buf fuel) h.num_answers p2 = .err e →
      parse_dns_packet buf fuel = .err e) ∧
    (∀ (f : Nat → Res (DnsRecord × Nat)) n pos e, f pos = .err e →
      parseN f (n + 1) pos = .err e) := by
  refine ⟨?_, ?_, ?_, ?_, ?_⟩
  · intro buf fuel h p1 qs p2 ans p3 auth p4 add p5 hh hq hans hauth hadd
    refine ⟨?_, parseN_length _ _ _ _ _ hq, parseN_length _ _ _ _ _ hans,
      parseN_length _ _ _ _ _ hauth, parseN_length _ _ _ _ _ hadd⟩
    simp only [parse_dns_packet, hh, Res.bind, hq, hans, hauth, hadd]
  · intro buf fuel e hh
    simp only [parse_dns_packet, hh, Res.bind]
  · intro buf fuel h p1 e hh hq
    simp only [parse_dns_packet, hh, Res.bind, hq]
  · intro buf fuel h p1 qs p2 e hh hq hans
    simp only [parse_dns_packet, hh, Res.bind, hq, hans]
  · intro f n pos e hf
    simp only [parseN, hf]

/-- Witness for `parse_dns_packet_structure` on the all-zero 12-byte
header: all counts are zero, so the packet is the header and four empty
sections. -/
theorem parse_dns_packet_structure_witness :
    parse_dns_packet (List.replicate 12 0) 1
      = .ok ⟨⟨0, 0, 0, 0, 0, 0⟩, [], [], [], []⟩ :=
  (parse_dns_packet_structure.1 (List.replicate 12 0) 1 ⟨0, 0, 0, 0, 0, 0⟩ 12 [] 12 [] 12 [] 12
    [] 12 (by decide) (by decide) (by decide) (by decide) (by decide)).1

/-! ## Claim C8 — `build_query("www.example.com", A)` -/

/-- Claim C8: for every 16-bit id, `build_query("www.example.com", A)`
produces bytes whose first 12 decode to the header
`{id, flags = 0x0100, num_questions = 1, all other counts 0}` and whose
remaining bytes decode, from offset 12, to the single question
`{name = "www.example.com", type = A, class = IN}`, consuming the buffer
exactly (final cursor 33 = the query's length). -/
theorem build_query_decodes (id : Nat) (qb : List Nat) (hid : id < 65536)
    (hq : build_query id wwwName .A = .ok qb) :
    DnsHeader.try_from qb = .ok ⟨id, 256, 1, 0, 0, 0⟩ ∧
    parse_question qb 4 12 = .ok (⟨wwwName, .A, .In⟩, 33) := by
  have henc : encode_dns_name wwwName
      = .ok [3, 119, 119, 119, 7, 101, 120, 97, 109, 112, 108, 101, 3, 99, 111, 109, 0] := by
    decide
  have hbq : build_query id wwwName .A
      = .ok ((id / 256 % 256) :: id % 256 :: [1, 0, 0, 1, 0, 0, 0, 0, 0, 0, 3, 119, 119, 119, 7,
          101, 120, 97, 109, 112, 108, 101, 3, 99, 111, 109, 0, 0, 1, 0, 1]) := by
    simp [build_query, henc, Res.bind, header_to_bytes, question_to_bytes, u16bytes,
      RecordType.toNat, Class.toNat]
  have hqb : qb = (id / 256 % 256) :: id % 256 :: [1, 0, 0, 1, 0, 0, 0, 0, 0, 0, 3, 119, 119,
      119, 7, 101, 120, 97, 109, 112, 108, 101, 3, 99, 111, 109, 0, 0, 1, 0, 1] := by
    have h2 := hq.symm.trans hbq
    injection h2
  constructor
  · rw [hqb]
    simp only [DnsHeader.try_from]
    rw [if_pos (by simp)]
    simp only [u16be, List.getD_cons_zero, List.getD_cons_succ, Res.ok.injEq,
      DnsHeader.mk.injEq, and_true, true_and]
    omega
  · have hkey := nameLoop_encLabels
      [[119, 119, 119], [101, 120, 97, 109, 112, 108, 101], [99, 111, 109]]
      ((id / 256 % 256) :: id % 256 :: [1, 0, 0, 1, 0, 0, 0, 0, 0, 0]) [0, 1, 0, 1] [] 12 0
      (by decide)
    simp only [encLabels, joinDots, List.length_cons, List.length_nil, List.cons_append,
      List.nil_append, List.append_nil, List.length_append] at hkey
    norm_num at hkey
    rw [hqb]
    simp only [parse_question, decord_name]
    rw [hkey]
    simp only [Res.bind]
    rw [if_pos (by simp)]
    have h29 : ((id / 256 % 256) :: id % 256 :: [1, 0, 0, 1, 0, 0, 0, 0, 0, 0, 3, 119, 119, 119,
        7, 101, 120, 97, 109, 112, 108, 101, 3, 99, 111, 109, 0] : List Nat).length = 29 := by
      simp
    have hs := slice_append_length ((id / 256 % 256) :: id % 256 :: [1, 0, 0, 1, 0, 0, 0, 0, 0,
      0, 3, 119, 119, 119, 7, 101, 120, 97, 109, 112, 108, 101, 3, 99, 111, 109, 0]) [0, 1, 0, 1]
      0 4
    rw [h29] at hs
    norm_num [List.cons_append, List.nil_append] at hs
    rw [show (slice ([0, 1, 0, 1] : List Nat) 0 4) = [0, 1, 0, 1] from by decide] at hs
    rw [hs]
    rw [show DnsQuestion.try_from [119, 119, 119, 46, 101, 120, 97, 109, 112, 108, 101, 46, 99,
      111, 109] [0, 1, 0, 1] = .ok ⟨wwwName, .A, .In⟩ from by decide]

/-- Witness for `build_query_decodes` at id 0. -/
theorem build_query_decodes_witness :
    DnsHeader.try_from [0, 0, 1, 0, 0, 1, 0, 0, 0, 0, 0, 0, 3, 119, 119, 119, 7, 101, 120, 97,
        109, 112, 108, 101, 3, 99, 111, 109, 0, 0, 1, 0, 1] = .ok ⟨0, 256, 1, 0, 0, 0⟩ ∧
    parse_question [0, 0, 1, 0, 0, 1, 0, 0, 0, 0, 0, 0, 3, 119, 119, 119, 7, 101, 120, 97, 109,
        112, 108, 101, 3, 99, 111, 109, 0, 0, 1, 0, 1] 4 12 = .ok (⟨wwwName, .A, .In⟩, 33) :=
  build_query_decodes 0
    [0, 0, 1, 0, 0, 1, 0, 0, 0, 0, 0, 0, 3, 119, 119, 119, 7, 101, 120, 97, 109, 112, 108, 101,
      3, 99, 111, 109, 0, 0, 1, 0, 1] (by decide) (by decide)

end ToyDns
